import Mathlib

/-
Shallow embedding of the extraction-and-merge core of the GitHub
notification-mail indexing pipeline (source files
`src/_internal/email_models.py`, `src/_internal/helpers.py`,
`src/markdown_sections.py`).

Modelling conventions:
  - Python `Optional[T]` becomes `Option T`; Python `None` becomes `none`.
  - Python strings are processed as `List Char`, matching the per-character
    scanning the `re` module performs; the regexes of the source are
    embedded as explicit scanners that reproduce the anchoring, greediness
    and backtracking behaviour of the concrete patterns.
  - Python code that can raise becomes `Except String`.
  - `list(set(x))` produces its elements in an unspecified order in Python;
    it is embedded as `pyDedup` (first-occurrence order).  Theorems about
    such values are stated at the level of element sets (`List.toFinset`).
-/

/- Character classes used by the embedded regexes.  `isPyWS` is the set
matched by Python's `\s` and stripped by `str.strip()` (ASCII range);
`wordChar` is Python's `\w` restricted to ASCII, which is the alphabet the
notification-mail corpus uses. -/
def isPyWS (c : Char) : Bool :=
  c = ' ' || c = '\t' || c = '\n' || c = '\r' || c = '\x0b' || c = '\x0c'

def wordChar (c : Char) : Bool := c.isAlpha || c.isDigit || c = '_'

def pyStripL (cs : List Char) : List Char :=
  ((cs.dropWhile isPyWS).reverse.dropWhile isPyWS).reverse

/- Python `str.strip()`. -/
def pyStrip (s : String) : String := String.mk (pyStripL s.toList)

/- Python `str.lower()` (ASCII inputs). -/
def pyLower (s : String) : String := String.mk (s.toList.map Char.toLower)

/- Strip the given characters from both ends, Python `str.strip(chars)`. -/
def stripCharsL (chs : List Char) (cs : List Char) : List Char :=
  ((cs.dropWhile (chs.contains ·)).reverse.dropWhile (chs.contains ·)).reverse

def dedupAux [DecidableEq α] : List α → List α → List α
  | [], _ => []
  | a :: as, seen => if a ∈ seen then dedupAux as seen else a :: dedupAux as (a :: seen)

/- Python `list(set(l))`: same element set, duplicates removed.  Python
leaves the order unspecified; we present the set in first-occurrence
order. -/
def pyDedup [DecidableEq α] (l : List α) : List α := dedupAux l []

/- Python `list(set(a) | set(b))`. -/
def pyUnion [DecidableEq α] (a b : List α) : List α := pyDedup (a ++ b)

/- Python substring test `needle in hay`. -/
def containsSub [DecidableEq α] : List α → List α → Bool
  | [], nd => nd.isEmpty
  | a :: t, nd => nd.isPrefixOf (a :: t) || containsSub t nd

def strContains (hay needle : String) : Bool := containsSub hay.toList needle.toList

def digitsToNat (ds : List Char) : Nat :=
  ds.foldl (fun a c => a * 10 + (c.toNat - 48)) 0

/- Python `int(s)` on a string: optional surrounding whitespace, optional
sign, at least one digit; anything else raises `ValueError` (`none`). -/
def pythonInt (s : String) : Option Int :=
  let t := pyStripL s.toList
  let sd : Int × List Char :=
    match t with
    | '+' :: r => (1, r)
    | '-' :: r => (-1, r)
    | r => (1, r)
  if sd.2 ≠ [] ∧ sd.2.all Char.isDigit then
    some (sd.1 * Int.ofNat (digitsToNat sd.2))
  else none

/- `CommitInfo = namedtuple("CommitInfo", ["sha", "short", "message"])`
(helpers.py line 22). -/
structure CommitInfo where
  sha : String
  short : String
  message : String
  deriving DecidableEq, Repr

/- The `markdown` field of `EmailMessage` is the dict produced by
`extract_markdown_sections`: section-key to optional list of items.
Python dicts preserve insertion order, so it is embedded as an ordered
association list. -/
abbrev Markdown := List (String × Option (List String))

/- `EmailMessage` (email_models.py).  Field layout follows the Pydantic
model; all `Optional` fields default to `None` there. -/
structure EM where
  subject : String
  sender : Option String
  date : Option String
  message_id : Option String
  pr_numbers : Option (List Int)
  pr_title : Option String
  repos : Option (List String)
  tickets : Option (List String)
  body : String
  markdown : Option Markdown
  commits : Option (List CommitInfo)
  files_modified : Option (List String)
  tags : Option (List String)
  linked_prs : Option (List Int)
  linked_tickets : Option (List String)
  contributors : Option (List String)
  deriving DecidableEq, Repr

/- Association-list operations mirroring Python dict access on the
`markdown` field. -/
def dictGet (d : Markdown) (k : String) : Option (Option (List String)) :=
  (d.find? (fun kv => kv.1 = k)).map (fun kv => kv.2)

def dictSet (d : Markdown) (k : String) (v : Option (List String)) : Markdown :=
  if d.any (fun kv => kv.1 = k) then
    d.map (fun kv => if kv.1 = k then (kv.1, v) else kv)
  else d ++ [(k, v)]

/- Python truthiness of an item list (`None` and `[]` are falsy). -/
def truthyItems : Option (List String) → Bool
  | some (_ :: _) => true
  | _ => false

/- One iteration of the markdown-merge loop of `append_by_pr`
(email_models.py lines 130-136):

    for key, items in new_value.items():
        if key in existing_value and items:
            if existing_value[key]:
                if 'sonar' not in key.lower() or 'sonar' not in ",".join(items).lower():
                    existing_value[key].extend(items)
        else:
            existing_value[key] = items
-/
def mdStep (e : Markdown) (key : String) (items : Option (List String)) : Markdown :=
  match dictGet e key with
  | some ev =>
      match items with
      | some its =>
          if its ≠ [] then
            match ev with
            | some evl =>
                if evl ≠ [] then
                  if ¬ strContains (pyLower key) "sonar"
                      ∨ ¬ strContains (pyLower (String.intercalate "," its)) "sonar" then
                    dictSet e key (some (evl ++ its))
                  else e
                else e
            | none => e
          else dictSet e key items
      | none => dictSet e key none
  | none => dictSet e key items

/- The `markdown` branch of the merge (email_models.py lines 126-137):
adopt when existing is `None`; otherwise merge key-wise when both dicts
are truthy (non-empty). -/
def mergeMarkdown : Option Markdown → Option Markdown → Option Markdown
  | none, some d => some d
  | none, none => none
  | some e, none => some e
  | some e, some n =>
      if e ≠ [] ∧ n ≠ [] then some (n.foldl (fun acc kv => mdStep acc kv.1 kv.2) e)
      else some e

/- The list branch and the `None`-adopt branch of the merge for a
list-valued field (email_models.py lines 121-127):

    if isinstance(existing_value, list):
        if new_value:
            combined = set(existing_value) | set(new_value)
            setattr(existing_email, field, list(combined))
    else:
        if existing_value is None and new_value is not None:
            setattr(existing_email, field, new_value)
-/
def mergeListField [DecidableEq α] : Option (List α) → Option (List α) → Option (List α)
  | some l, some m => if m = [] then some l else some (pyUnion l m)
  | some l, none => some l
  | none, some m => some m
  | none, none => none

/- The body branch (email_models.py lines 138-142): append when the new
body is truthy (non-empty), joined by a blank line. -/
def mergeBody (e n : String) : String :=
  if n = "" then e else e ++ "\n\n" ++ n

/- Merging a new record `R` into an existing canonical record `E`: the
per-field loop of `append_by_pr` (email_models.py lines 117-142).  The
loop runs over `self.model_fields_set` minus
`{sender, date, subject, message_id, pr_title, pr_numbers}`; since every
field of the Pydantic model defaults to `None`, a field outside
`model_fields_set` holds `None` on `R`, and merging a `None` new value is
a no-op in every branch, so iterating over all non-excluded fields is
observationally the same. -/
def mergeInto (E R : EM) : EM :=
  { E with
    repos := mergeListField E.repos R.repos
    tickets := mergeListField E.tickets R.tickets
    body := mergeBody E.body R.body
    markdown := mergeMarkdown E.markdown R.markdown
    commits := mergeListField E.commits R.commits
    files_modified := mergeListField E.files_modified R.files_modified
    tags := mergeListField E.tags R.tags
    linked_prs := mergeListField E.linked_prs R.linked_prs
    linked_tickets := mergeListField E.linked_tickets R.linked_tickets
    contributors := mergeListField E.contributors R.contributors }

/- `self.pr_numbers or []`. -/
def prsOf (e : EM) : List Int := e.pr_numbers.getD []

/- `existing_email.pr_numbers and pr in existing_email.pr_numbers`
(email_models.py line 115); for `None` or `[]` both sides are falsy. -/
def hasPr (e : EM) (p : Int) : Bool := decide (p ∈ prsOf e)

/- The inner scan of `append_by_pr` (email_models.py lines 113-144): find
the first existing record containing `p`, merge `R` into it in place and
stop; `none` when no record matches. -/
def mergeStep (R : EM) (p : Int) : List EM → Option (List EM)
  | [] => none
  | e :: rest =>
      if hasPr e p then some (mergeInto e R :: rest)
      else
        match mergeStep R p rest with
        | some rest' => some (e :: rest')
        | none => none

/- The outer loop of `append_by_pr` over `self`'s PR numbers
(email_models.py lines 112-146): per PR number, merge into the first
match, otherwise append `self`.  Python appends `self` by reference, so a
later iteration can merge the appended record into itself; this value
semantics embedding copies `R` instead.  The divergence affects only the
mutated content fields of such a self-merged copy, never the list length
or any record's `pr_numbers` (the merge never touches `pr_numbers`). -/
def appendLoop (R : EM) : List Int → List EM → List EM
  | [], res => res
  | p :: rest, res =>
      match mergeStep R p res with
      | some res' => appendLoop R rest res'
      | none => appendLoop R rest (res ++ [R])

/- `append_by_pr` (email_models.py lines 95-147).  An empty result list
short-circuits to `[self]`. -/
def append_by_pr (R : EM) (res : List EM) : List EM :=
  if res = [] then [R] else appendLoop R (prsOf R) res

/- The raw (pre-validation) shape handed to the `pr_numbers` field
validator: the docstring of `convert_pr_numbers` documents the accepted
inputs `None`, a bare int, and a list of number strings. -/
inductive RawPr where
  | noneV : RawPr
  | intV (n : Int) : RawPr
  | strs (l : List String) : RawPr
  deriving DecidableEq, Repr

/- `EmailMessage.convert_pr_numbers` (email_models.py lines 47-62):

    if not value: return None
    if isinstance(value, int): return [value]
    return [int(v) for v in value]

`int(v)` can raise `ValueError`, hence `Except`.  Note `not 0` is truthy
in Python, so the bare int `0` also maps to `None`. -/
def convert_pr_numbers : RawPr → Except String (Option (List Int))
  | .noneV => .ok none
  | .intV n => if n = 0 then .ok none else .ok (some [n])
  | .strs l =>
      if l = [] then .ok none
      else do
        let ns ← l.mapM (fun s =>
          match pythonInt s with
          | some n => Except.ok n
          | none => Except.error ("ValueError: invalid literal for int: " ++ s))
        .ok (some ns)

/- `EmailMessage.empty_list_to_none` (email_models.py lines 64-78):
`[] -> None`, applied to repos, tickets, markdown, commits,
files_modified, tags and contributors — and to no other field. -/
def empty_list_to_none [DecidableEq α] : Option (List α) → Option (List α)
  | none => none
  | some [] => none
  | some l => some l

/- `empty_list_to_none` on the `markdown` field: the value is a dict and
in Python `{} == []` is `False`, so only `None` maps to `None`; even an
empty dict is kept. -/
def empty_markdown_to_none : Option Markdown → Option Markdown
  | none => none
  | some d => some d

/- `EmailMessage.clean_empty_fields` (email_models.py lines 84-93):
an all-whitespace `pr_title` becomes `None` after construction. -/
def clean_pr_title : Option String → Option String
  | none => none
  | some s => if pyStrip s = "" then none else some s

/- The keyword arguments of an `EmailMessage(...)` construction, before
field validation. -/
structure RawEmail where
  subject : String
  sender : Option String := none
  date : Option String := none
  message_id : Option String := none
  pr_numbers : RawPr := .noneV
  pr_title : Option String := none
  repos : Option (List String) := none
  tickets : Option (List String) := none
  body : String
  markdown : Option Markdown := none
  commits : Option (List CommitInfo) := none
  files_modified : Option (List String) := none
  tags : Option (List String) := none
  linked_prs : Option (List Int) := none
  linked_tickets : Option (List String) := none
  contributors : Option (List String) := none
  deriving DecidableEq, Repr

/- Constructing an `EmailMessage`: run the field validators (on exactly
the fields they are registered for), then the model validator.
`linked_prs` and `linked_tickets` have no validator and are stored as
given. -/
def mkEmailMessage (r : RawEmail) : Except String EM :=
  match convert_pr_numbers r.pr_numbers with
  | .error e => .error e
  | .ok prs => .ok
    { subject := r.subject
      sender := r.sender
      date := r.date
      message_id := r.message_id
      pr_numbers := prs
      pr_title := clean_pr_title r.pr_title
      repos := empty_list_to_none r.repos
      tickets := empty_list_to_none r.tickets
      body := r.body
      markdown := empty_markdown_to_none r.markdown
      commits := empty_list_to_none r.commits
      files_modified := empty_list_to_none r.files_modified
      tags := empty_list_to_none r.tags
      linked_prs := r.linked_prs
      linked_tickets := r.linked_tickets
      contributors := empty_list_to_none r.contributors }

/- `REPO_FROM_SUBJECT = re.compile(r'\[([^\]]+)\]')`, used via `findall`
(helpers.py line 38).  State machine over the characters: outside a
candidate (`none`) we look for `[`; inside (`some acc`) we accumulate
non-`]` characters greedily and emit on `]` when at least one character
was captured.  An immediate `[]` is not a match and scanning resumes at
the `]`, which cannot start a match. -/
def bracketScan : List Char → Option (List Char) → List String
  | [], _ => []
  | c :: rest, none =>
      if c = '[' then bracketScan rest (some []) else bracketScan rest none
  | c :: rest, some acc =>
      if c = ']' then
        if acc = [] then bracketScan rest none
        else String.mk acc.reverse :: bracketScan rest none
      else bracketScan rest (some (c :: acc))

/- Case-insensitive literal prefix match; returns the remainder. -/
def dropCI : List Char → List Char → Option (List Char)
  | [], cs => some cs
  | _, [] => none
  | p :: ps, c :: cs => if c.toLower = p.toLower then dropCI ps cs else none

/- Try `PR_FROM_SUBJECT = (?:PR\s*#|pull request\s*#|#)(\d+)` with
`re.IGNORECASE` (helpers.py lines 31-34) at the current position; on
success return the captured digit run and the remainder.  Alternatives
are tried left to right, as the `re` engine does. -/
def tryPRAt (cs : List Char) : Option (String × List Char) :=
  let viaHash : List Char → Option (String × List Char) := fun r1 =>
    match r1.dropWhile isPyWS with
    | '#' :: r2 =>
        let ds := r2.takeWhile Char.isDigit
        if ds = [] then none else some (String.mk ds, r2.drop ds.length)
    | _ => none
  match dropCI ['p', 'r'] cs with
  | some r1 =>
      match viaHash r1 with
      | some res => some res
      | none =>
          match dropCI "pull request".toList cs with
          | some r1' => viaHash r1'
          | none =>
              match cs with
              | '#' :: _ => viaHash cs
              | _ => none
  | none =>
      match dropCI "pull request".toList cs with
      | some r1' => viaHash r1'
      | none =>
          match cs with
          | '#' :: _ => viaHash cs
          | _ => none

/- `PR_FROM_SUBJECT.findall`: non-overlapping left-to-right scan.  The
fuel is the input length; every match consumes at least one character. -/
def prScan : Nat → List Char → List String
  | 0, _ => []
  | _, [] => []
  | fuel + 1, c :: rest =>
      match tryPRAt (c :: rest) with
      | some (d, rest') => d :: prScan fuel rest'
      | none => prScan fuel rest

/- Try `TICKET_FROM_SUBJECT = \b([A-Z]+-\d+)\b` (helpers.py line 41) at
the current position.  The leading boundary is checked by the caller; the
runs of capitals and digits are maximal (backtracking cannot help because
a shorter run is followed by a character of the same class). -/
def tryTicketAt (cs : List Char) : Option (String × List Char) :=
  let ups := cs.takeWhile (fun c => 'A' ≤ c ∧ c ≤ 'Z')
  if ups = [] then none
  else
    match cs.drop ups.length with
    | '-' :: r2 =>
        let ds := r2.takeWhile Char.isDigit
        if ds = [] then none
        else
          match r2.drop ds.length with
          | [] => some (String.mk (ups ++ '-' :: ds), [])
          | c :: r3 =>
              if wordChar c then none
              else some (String.mk (ups ++ '-' :: ds), c :: r3)
    | _ => none

/- `TICKET_FROM_SUBJECT.findall`: the Boolean argument tracks whether the
previous character was a word character (no `\b` there). -/
def ticketScan : Nat → Bool → List Char → List String
  | 0, _, _ => []
  | _, _, [] => []
  | fuel + 1, prevWord, c :: rest =>
      if prevWord then ticketScan fuel (wordChar c) rest
      else
        match tryTicketAt (c :: rest) with
        | some (t, rest') => t :: ticketScan fuel true rest'
        | none => ticketScan fuel (wordChar c) rest

/- `MENTION_RE = @([A-Za-z0-9-]+)` via `findall` (helpers.py line 61). -/
def mentionScan : Nat → List Char → List String
  | 0, _ => []
  | _, [] => []
  | fuel + 1, c :: rest =>
      if c = '@' then
        let run := rest.takeWhile (fun x => x.isAlpha || x.isDigit || x = '-')
        if run = [] then mentionScan fuel rest
        else String.mk run :: mentionScan fuel (rest.drop run.length)
      else mentionScan fuel rest

/- `extract_contributors` (helpers.py lines 62-71): empty body yields
`[]`, otherwise the unique mentions. -/
def extract_contributors (s : String) : List String :=
  if s = "" then [] else pyDedup (mentionScan (s.toList.length + 1) s.toList)

/- Python `hay.replace(needle, '')` for a non-empty needle: remove all
non-overlapping occurrences left to right (used for `[repo]` removal,
helpers.py line 186). -/
def removeAllSub : Nat → List Char → List Char → List Char
  | 0, _, hay => hay
  | _, _, [] => []
  | fuel + 1, needle, c :: rest =>
      if needle.isPrefixOf (c :: rest) ∧ needle ≠ [] then
        removeAllSub fuel needle ((c :: rest).drop needle.length)
      else c :: removeAllSub fuel needle rest

/- Try `(PR\s*#|pull request\s*#|#){p}` with `re.I` (helpers.py lines
190-195) at the current position, where `p` is the literal digit string
of an extracted PR number; return the remainder after the match. -/
def trySubPRAt (p : List Char) (cs : List Char) : Option (List Char) :=
  let afterLit : List Char → Option (List Char) := fun r =>
    if p.isPrefixOf r then some (r.drop p.length) else none
  let viaHash : List Char → Option (List Char) := fun r1 =>
    match r1.dropWhile isPyWS with
    | '#' :: r2 => afterLit r2
    | _ => none
  match dropCI ['p', 'r'] cs with
  | some r1 =>
      match viaHash r1 with
      | some res => some res
      | none =>
          match dropCI "pull request".toList cs with
          | some r1' => viaHash r1'
          | none =>
              match cs with
              | '#' :: r2 => afterLit r2
              | _ => none
  | none =>
      match dropCI "pull request".toList cs with
      | some r1' => viaHash r1'
      | none =>
          match cs with
          | '#' :: r2 => afterLit r2
          | _ => none

/- `re.sub` of the PR-marker pattern with the empty replacement. -/
def subPRScan : Nat → List Char → List Char → List Char
  | 0, _, hay => hay
  | _, _, [] => []
  | fuel + 1, p, c :: rest =>
      match trySubPRAt p (c :: rest) with
      | some rest' => subPRScan fuel p rest'
      | none => c :: subPRScan fuel p rest

/- `re.sub(rf'\b{t}[:\-\s]*', '', ...)` for an extracted ticket `t`
(helpers.py line 199).  `t` starts with a capital and ends with a digit,
so the leading `\b` amounts to: previous character is not a word
character.  After the literal, the separator run `[:\-\s]*` is consumed
greedily. -/
def subTicketScan : Nat → List Char → Bool → List Char → List Char
  | 0, _, _, hay => hay
  | _, _, _, [] => []
  | fuel + 1, t, prevWord, c :: rest =>
      if ¬ prevWord ∧ t.isPrefixOf (c :: rest) then
        let r := (c :: rest).drop t.length
        let r2 := r.dropWhile (fun x => x = ':' ∨ x = '-' ∨ isPyWS x)
        subTicketScan fuel t (r2.length = r.length) r2
      else c :: subTicketScan fuel t (wordChar c) rest

/- The dict returned by `extract_metadata_from_subject`. -/
structure SubjectMeta where
  repos : Option (List String)
  pr_numbers : Option (List String)
  tickets : Option (List String)
  pr_title : Option String
  contributors : Option (List String)
  deriving DecidableEq, Repr

/- Python `l or None`. -/
def orNoneL [DecidableEq α] (l : List α) : Option (List α) :=
  if l = [] then none else some l

/- `extract_metadata_from_subject` (helpers.py lines 150-207). -/
def extract_metadata_from_subject (subject : String) : SubjectMeta :=
  let cs := subject.toList
  let repos := bracketScan cs none
  let prNums := prScan (cs.length + 1) cs
  let tickets := ticketScan (cs.length + 1) false cs
  let contributors := extract_contributors subject
  let t1 := repos.foldl
    (fun acc r => removeAllSub (acc.length + 1) ('[' :: r.toList ++ [']']) acc) cs
  let t2 := prNums.foldl
    (fun acc p => subPRScan (acc.length + 1) p.toList acc) t1
  let t3 := tickets.foldl
    (fun acc t => subTicketScan (acc.length + 1) t.toList false acc) t2
  let title := String.mk (stripCharsL [' ', '-', ':', '_'] t3)
  { repos := orNoneL repos
    pr_numbers := orNoneL prNums
    tickets := orNoneL tickets
    pr_title := if title = "" then none else some title
    contributors := orNoneL contributors }

/- Lower-case hex digit, the class `[0-9a-f]` of `COMMIT_SIMPLE`. -/
def hexLower (c : Char) : Bool := c.isDigit || ('a' ≤ c ∧ c ≤ 'f')

/- Backtracking of `\s+(.+)` after a token: `\s+` prefers the maximal
whitespace run but backs off (largest k first) until `.+` can match at
least one non-newline character.  Returns the chosen k, `none` when the
optional group cannot match. -/
def findMsgK : Nat → List Char → Option Nat
  | 0, _ => none
  | k + 1, r =>
      match r.drop (k + 1) with
      | c :: _ => if c ≠ '\n' then some (k + 1) else findMsgK k r
      | [] => findMsgK k r

/- Try `COMMIT_SIMPLE = ^[ \t]*([0-9a-f]{7,40})\b(?:\s+(.+))?`
(helpers.py lines 45-48) at a line start.  The hex run is maximal: if it
is longer than 40, every 7-40 prefix is followed by a hex (word)
character and `\b` fails, so there is no match; if it is 7-40 long, the
following character must not be a word character. -/
def tryCommitAt (cs : List Char) : Option ((String × Option String) × List Char) :=
  let cs1 := cs.dropWhile (fun c => c = ' ' ∨ c = '\t')
  let hex := cs1.takeWhile hexLower
  if 7 ≤ hex.length ∧ hex.length ≤ 40 then
    let r := cs1.drop hex.length
    let bOk : Bool := match r with | [] => true | c :: _ => ¬ wordChar c
    if bOk then
      let ws := r.takeWhile isPyWS
      match findMsgK ws.length r with
      | some k =>
          let m := (r.drop k).takeWhile (fun c => c ≠ '\n')
          some ((String.mk hex, some (String.mk m)), (r.drop k).drop m.length)
      | none => some ((String.mk hex, none), r)
    else none
  else none

/- `COMMIT_SIMPLE.finditer` with `re.MULTILINE`: the pattern is anchored
with `^`, so matches are attempted only at line starts; after a match the
scan resumes right after it (mid-line, since the match ends in a
non-newline character). -/
def commitScan : Nat → Bool → List Char → List (String × Option String)
  | 0, _, _ => []
  | _, _, [] => []
  | fuel + 1, atLineStart, c :: rest =>
      if atLineStart then
        match tryCommitAt (c :: rest) with
        | some (m, rest') => m :: commitScan fuel false rest'
        | none => commitScan fuel (c = '\n') rest
      else commitScan fuel (c = '\n') rest

/- `f"{m.group(1)} {m.group(2) or ''}".strip()` (helpers.py line 232). -/
def formatCommit (m : String × Option String) : String :=
  pyStrip (m.1 ++ " " ++ m.2.getD "")

/- `parse_commit_lines` (helpers.py lines 353-364):

    sha, msg = line.split(" ", 1)

raises `ValueError` when the line holds no space (one value to unpack);
otherwise `short = sha[:7]` and the message is stripped. -/
def splitFirstSpace : List Char → Option (List Char × List Char)
  | [] => none
  | ' ' :: r => some ([], r)
  | c :: r =>
      match splitFirstSpace r with
      | some (a, b) => some (c :: a, b)
      | none => none

def parse_commit_lines : List String → Except String (List CommitInfo)
  | [] => .ok []
  | line :: rest =>
      match splitFirstSpace line.toList with
      | none => .error "ValueError: not enough values to unpack (expected 2, got 1)"
      | some (sha, msg) => do
          let cs ← parse_commit_lines rest
          .ok ({ sha := String.mk sha
                 short := (String.mk sha).take 7
                 message := pyStrip (String.mk msg) } :: cs)

/- `extract_commits` (helpers.py lines 214-235): format each regex match,
then `parse_commit_lines(commits) or None`. -/
def extract_commits (text : String) : Except String (Option (List CommitInfo)) :=
  let ms := commitScan (text.toList.length + 1) true text.toList
  match parse_commit_lines (ms.map formatCommit) with
  | .error e => .error e
  | .ok cs => .ok (if cs = [] then none else some cs)

/- Character class `[A-Za-z0-9_./\-\+]` of `FILE_PATH`. -/
def pathChar (c : Char) : Bool :=
  c.isAlpha || c.isDigit || c = '_' || c = '.' || c = '/' || c = '-' || c = '+'

/- Try `FILE_PATH = ^[ \t]*(?:M|A|D|R\d{1,3})\s+(?:a/|b/)?([A-Za-z0-9_./\-\+]+)`
(helpers.py lines 56-59) at a line start.  After the status code, `\s+`
must match (whitespace characters are not path characters, so the maximal
run is the only candidate); the optional `a/`/`b/` prefix is preferred
but dropped again if no path character follows it. -/
def tryFileAt (cs : List Char) : Option (String × List Char) :=
  let cs1 := cs.dropWhile (fun c => c = ' ' ∨ c = '\t')
  let afterStatus : Option (List Char) :=
    match cs1 with
    | 'M' :: r => some r
    | 'A' :: r => some r
    | 'D' :: r => some r
    | 'R' :: r =>
        let ds := r.takeWhile Char.isDigit
        if 1 ≤ ds.length ∧ ds.length ≤ 3 then some (r.drop ds.length) else none
    | _ => none
  match afterStatus with
  | none => none
  | some r =>
      let ws := r.takeWhile isPyWS
      if ws = [] then none
      else
        let r2 := r.drop ws.length
        let noPrefix : Option (String × List Char) :=
          let run := r2.takeWhile pathChar
          if run = [] then none else some (String.mk run, r2.drop run.length)
        match r2 with
        | x :: '/' :: r3 =>
            if x = 'a' ∨ x = 'b' then
              let run := r3.takeWhile pathChar
              if run = [] then noPrefix else some (String.mk run, r3.drop run.length)
            else noPrefix
        | _ => noPrefix

/- `FILE_PATH.findall` with `re.MULTILINE` (anchored at line starts). -/
def fileScan : Nat → Bool → List Char → List String
  | 0, _, _ => []
  | _, _, [] => []
  | fuel + 1, atLineStart, c :: rest =>
      if atLineStart then
        match tryFileAt (c :: rest) with
        | some (m, rest') => m :: fileScan fuel false rest'
        | none => fileScan fuel (c = '\n') rest
      else fileScan fuel (c = '\n') rest

def fileMatches (text : String) : List String :=
  fileScan (text.toList.length + 1) true text.toList

/- `re.sub(r'\(\d+\)$', '', m)` (helpers.py line 262): drop a trailing
parenthesised digit run. -/
def removeTrailingParen (s : String) : String :=
  match s.toList.reverse with
  | ')' :: r =>
      let ds := r.takeWhile Char.isDigit
      if ds ≠ [] ∧ (r.drop ds.length).head? = some '(' then
        String.mk ((r.drop ds.length).tail.reverse)
      else s
  | _ => s

/- Python `path.split("/")`: split on every slash, keeping empty
segments (`"a//b"` gives `["a", "", "b"]`, `""` gives `[""]`). -/
def splitSlashAux : List Char → List Char → List String
  | [], acc => [String.mk acc.reverse]
  | '/' :: r, acc => String.mk acc.reverse :: splitSlashAux r []
  | c :: r, acc => splitSlashAux r (c :: acc)

def splitSlash (s : String) : List String := splitSlashAux s.toList []

/- `extract_files_modified` (helpers.py lines 239-269): clean each match,
split every path on `/`, flatten, deduplicate.  Despite the annotated
return type, the function returns `[]` (not `None`) when nothing
matches. -/
def extract_files_modified (text : String) : List String :=
  let cleaned := (fileMatches text).map (fun m => pyStrip (removeTrailingParen m))
  let flat := (cleaned.map splitSlash).flatten
  if flat = [] then [] else pyDedup flat

/- Try `LIST_RE = ^[ \t]*([-*+]|\d+\.)\s+.+$` (markdown_sections.py lines
26-29) at a line start; the returned string is the CAPTURED GROUP, which
is only the bullet marker.  `\s+ .+` reuses the `findMsgK` backtracking;
`$` always holds at the end of the maximal `.+` run. -/
def tryListAt (cs : List Char) : Option (String × List Char) :=
  let cs1 := cs.dropWhile (fun c => c = ' ' ∨ c = '\t')
  let marker : Option (String × List Char) :=
    match cs1 with
    | '-' :: r => some ("-", r)
    | '*' :: r => some ("*", r)
    | '+' :: r => some ("+", r)
    | c :: _ =>
        if c.isDigit then
          let ds := cs1.takeWhile Char.isDigit
          match cs1.drop ds.length with
          | '.' :: r => some (String.mk (ds ++ ['.']), r)
          | _ => none
        else none
    | [] => none
  match marker with
  | none => none
  | some (mk, r) =>
      let ws := r.takeWhile isPyWS
      match findMsgK ws.length r with
      | some k =>
          let m := (r.drop k).takeWhile (fun c => c ≠ '\n')
          some (mk, (r.drop k).drop m.length)
      | none => none

/- `LIST_RE.findall` with `re.MULTILINE`. -/
def listScan : Nat → Bool → List Char → List String
  | 0, _, _ => []
  | _, _, [] => []
  | fuel + 1, atLineStart, c :: rest =>
      if atLineStart then
        match tryListAt (c :: rest) with
        | some (m, rest') => m :: listScan fuel false rest'
        | none => listScan fuel (c = '\n') rest
      else listScan fuel (c = '\n') rest

def listMatches (text : String) : List String :=
  listScan (text.toList.length + 1) true text.toList

/- `extract_lists` (markdown_sections.py lines 96-109): `findall`, bail
out on empty, re-run the identical `findall`, strip each result.  Because
the pattern holds one capture group, `findall` returns the captured
bullet markers, not full lines. -/
def extract_lists (text : String) : Option (List String) :=
  let lines := listMatches text
  if lines = [] then none
  else
    let cleaned := (listMatches text).map pyStrip
    if cleaned = [] then none else some cleaned

/- A MIME part as `extract_body` consumes it: content type plus decoded
payload.  `get_payload(decode=True)` decodes with `errors='ignore'` and
never raises, so the payload is modeled as the decoded text, `none` for
parts without payload (e.g. multipart containers in `msg.walk()`). -/
structure MimePart where
  ctype : String
  payload : Option String
  deriving DecidableEq, Repr

/- An email message (`email.message.Message`): either non-multipart with
a single payload, or multipart with its walked parts. -/
inductive MimeMsg where
  | single (payload : Option String) : MimeMsg
  | multipart (parts : List MimePart) : MimeMsg
  deriving DecidableEq, Repr

/- The collection loop of `extract_body` (helpers.py lines 101-116):
walk the parts; text/plain payloads are collected as decoded, text/html
payloads are cleaned (`clean_html`, a BeautifulSoup call modeled as an
arbitrary total function `clean`). -/
def collectParts (clean : String → String) : List MimePart → List String × List String
  | [] => ([], [])
  | p :: rest =>
      let acc := collectParts clean rest
      match p.payload with
      | none => acc
      | some s =>
          if p.ctype = "text/plain" then (s :: acc.1, acc.2)
          else if p.ctype = "text/html" then (acc.1, clean s :: acc.2)
          else acc

/- `extract_body` (helpers.py lines 76-126).  Non-multipart: return the
decoded payload; `str(None)` is the Python rendering when there is no
payload.  Multipart: prefer the plain parts, else the cleaned HTML parts,
else the empty string. -/
def extract_body (clean : String → String) : MimeMsg → String
  | .single p =>
      match p with
      | some s => s
      | none => "None"
  | .multipart parts =>
      let acc := collectParts clean parts
      if acc.1 ≠ [] then String.intercalate "\n" acc.1
      else if acc.2 ≠ [] then String.intercalate "\n" acc.2
      else ""

/- The text/plain payloads in part order, as the spec describes them. -/
def plainPayloads (parts : List MimePart) : List String :=
  parts.filterMap (fun p => if p.ctype = "text/plain" then p.payload else none)

/- The text/html payloads in part order. -/
def htmlPayloads (parts : List MimePart) : List String :=
  parts.filterMap (fun p => if p.ctype = "text/html" then p.payload else none)

/- A minimal record with every optional field absent, used as the base of
the concrete records in the theorems below. -/
def baseEM : EM :=
  { subject := "s"
    sender := none
    date := none
    message_id := none
    pr_numbers := none
    pr_title := none
    repos := none
    tickets := none
    body := "base body"
    markdown := none
    commits := none
    files_modified := none
    tags := none
    linked_prs := none
    linked_tickets := none
    contributors := none }

/- Concrete raw construction input for the empty-to-null claims: every
optional list field is passed the empty container. -/
def rawC4 : RawEmail :=
  { subject := "s"
    body := "b"
    pr_numbers := .strs []
    repos := some []
    tickets := some []
    commits := some []
    files_modified := some []
    tags := some []
    contributors := some []
    linked_prs := some []
    linked_tickets := some [] }

/- The record `mkEmailMessage rawC4` produces. -/
def recC4 : EM :=
  { baseEM with body := "b", linked_prs := some [], linked_tickets := some [] }

/- Concrete multipart part list: two text/plain parts around a text/html
part. -/
def partsC6 : List MimePart :=
  [{ ctype := "text/plain", payload := some "hello" },
   { ctype := "text/html", payload := some "<p>x</p>" },
   { ctype := "text/plain", payload := some "world" }]

/- Record construction from a subject line, as the extraction pipeline
does it: the parsed metadata becomes the keyword arguments of the
`EmailMessage(...)` call, with the PR-number strings fed to the
`convert_pr_numbers` validator. -/
def rawFromSubject (subject : String) : RawEmail :=
  let meta := extract_metadata_from_subject subject
  { subject := subject
    pr_numbers :=
      match meta.pr_numbers with
      | some l => RawPr.strs l
      | none => RawPr.noneV
    pr_title := meta.pr_title
    repos := meta.repos
    tickets := meta.tickets
    body := ""
    contributors := meta.contributors }

/- Concrete records for the merge-idempotence witness. -/
def e9w : EM := { baseEM with repos := some ["alpha"] }

def r9w : EM := { baseEM with body := "extra body", repos := some ["beta"] }

theorem mem_dedupAux [DecidableEq α] (l : List α) (a : α) :
    ∀ seen, a ∈ dedupAux l seen ↔ a ∈ l ∧ a ∉ seen := by
  induction l with
  | nil => intro seen; simp [dedupAux]
  | cons x xs ih =>
      intro seen
      by_cases hx : x ∈ seen
      · rw [dedupAux, if_pos hx]
        simp only [ih, List.mem_cons]
        constructor
        · rintro ⟨h1, h2⟩; exact ⟨Or.inr h1, h2⟩
        · rintro ⟨h1 | h1, h2⟩
          · exact absurd (h1 ▸ hx) h2
          · exact ⟨h1, h2⟩
      · rw [dedupAux, if_neg hx]
        simp only [List.mem_cons, ih]
        constructor
        · rintro (rfl | ⟨h1, h2⟩)
          · exact ⟨Or.inl rfl, hx⟩
          · refine ⟨Or.inr h1, fun hc => h2 (Or.inr hc)⟩
        · rintro ⟨h1 | h1, h2⟩
          · exact Or.inl h1
          · by_cases hax : a = x
            · exact Or.inl hax
            · exact Or.inr ⟨h1, fun hc => by
                rcases hc with h | h
                · exact hax h
                · exact h2 h⟩

theorem mem_pyDedup [DecidableEq α] (l : List α) (a : α) :
    a ∈ pyDedup l ↔ a ∈ l := by
  rw [pyDedup, mem_dedupAux]
  simp

theorem pyDedup_toFinset [DecidableEq α] (l : List α) :
    (pyDedup l).toFinset = l.toFinset := by
  ext a
  simp [List.mem_toFinset, mem_pyDedup]

theorem pyUnion_toFinset [DecidableEq α] (a b : List α) :
    (pyUnion a b).toFinset = a.toFinset ∪ b.toFinset := by
  rw [pyUnion, pyDedup_toFinset, List.toFinset_append]

/- Set-level idempotence of the list-field merge: merging the same new
value a second time does not change the element set. -/
theorem mergeListField_idem [DecidableEq α] (a b : Option (List α)) :
    (mergeListField (mergeListField a b) b).map List.toFinset
      = (mergeListField a b).map List.toFinset := by
  match a, b with
  | none, none => rfl
  | some l, none => rfl
  | none, some m =>
      show (mergeListField (some m) (some m)).map _ = _
      by_cases hm : m = []
      · simp [mergeListField, hm]
      · simp only [mergeListField, if_neg hm, Option.map_some']
        rw [pyUnion_toFinset, Finset.union_self]
  | some l, some m =>
      by_cases hm : m = []
      · simp [mergeListField, hm]
      · simp only [mergeListField, if_neg hm, Option.map_some']
        congr 1
        rw [pyUnion_toFinset, pyUnion_toFinset, Finset.union_assoc, Finset.union_self]

theorem collectParts_fst (clean : String → String) (parts : List MimePart) :
    (collectParts clean parts).1 = plainPayloads parts := by
  induction parts with
  | nil => rfl
  | cons p rest ih =>
      cases hp : p.payload with
      | none => simp [collectParts, plainPayloads, List.filterMap_cons, hp, ih]
      | some s =>
          by_cases hc : p.ctype = "text/plain"
          · simp [collectParts, plainPayloads, List.filterMap_cons, hp, hc, ih]
          · by_cases hh : p.ctype = "text/html"
            · simp [collectParts, plainPayloads, List.filterMap_cons, hp, hc, hh, ih]
            · simp [collectParts, plainPayloads, List.filterMap_cons, hp, hc, hh, ih]

theorem collectParts_snd (clean : String → String) (parts : List MimePart) :
    (collectParts clean parts).2 = (htmlPayloads parts).map clean := by
  induction parts with
  | nil => rfl
  | cons p rest ih =>
      cases hp : p.payload with
      | none => simp [collectParts, htmlPayloads, List.filterMap_cons, hp, ih]
      | some s =>
          by_cases hc : p.ctype = "text/plain"
          · have hh : p.ctype ≠ "text/html" := by rw [hc]; decide
            simp [collectParts, htmlPayloads, List.filterMap_cons, hp, hc, hh, ih]
          · by_cases hh : p.ctype = "text/html"
            · simp [collectParts, htmlPayloads, List.filterMap_cons, hp, hc, hh, ih]
            · simp [collectParts, htmlPayloads, List.filterMap_cons, hp, hc, hh, ih]

/-- C6: for a multipart message, the body normalizer returns the decoded
text/plain payloads newline-joined in part order when any exist (HTML
parts ignored); otherwise the cleaned HTML texts newline-joined in part
order; otherwise the empty string.  `clean` is the HTML cleaner
(`clean_html`), arbitrary here; decoding is total (`errors='ignore'`), so
the function is total by construction. -/
theorem c6_extract_body_preference (clean : String → String) (parts : List MimePart) :
    (plainPayloads parts ≠ [] →
      extract_body clean (MimeMsg.multipart parts)
        = String.intercalate "\n" (plainPayloads parts)) ∧
    (plainPayloads parts = [] → htmlPayloads parts ≠ [] →
      extract_body clean (MimeMsg.multipart parts)
        = String.intercalate "\n" ((htmlPayloads parts).map clean)) ∧
    (plainPayloads parts = [] → htmlPayloads parts = [] →
      extract_body clean (MimeMsg.multipart parts) = "") := by
  have h1 := collectParts_fst clean parts
  have h2 := collectParts_snd clean parts
  refine ⟨?_, ?_, ?_⟩
  · intro h
    simp only [extract_body, h1, h2]
    rw [if_pos h]
  · intro h hh
    have hmap : (htmlPayloads parts).map clean ≠ [] := by
      simpa using hh
    simp only [extract_body, h1, h2]
    rw [if_neg (by simp [h]), if_pos hmap]
  · intro h hh
    simp only [extract_body, h1, h2, h, hh]
    simp

/-- Witness for C6 at a concrete part list with two text/plain parts and
one text/html part. -/
theorem c6_witness :
    extract_body (fun s => s) (MimeMsg.multipart partsC6)
      = String.intercalate "\n" (plainPayloads partsC6) :=
  (c6_extract_body_preference (fun s => s) partsC6).1 (by decide)

/-- C1: evaluation of the merge at an existing record whose markdown map
has key "Sonar Findings" (which contains "sonar" case-insensitively) with
one item, and a new record supplying one further item that does not
mention "sonar": the code APPENDS the new item instead of leaving the
existing items unchanged, because the suppression test is a disjunction
of negated containment tests and fires only when BOTH the key and the
joined items contain "sonar".  This contradicts the claim (and the
method's own docstring "skip sonar related markdown merging"). -/
theorem c1_sonar_suppression_violated :
    (mergeInto
        { baseEM with pr_numbers := some [7],
                      markdown := some [("Sonar Findings", some ["old finding"])] }
        { baseEM with pr_numbers := some [7], body := "second mail",
                      markdown := some [("Sonar Findings", some ["new item"])] }).markdown
      = some [("Sonar Findings", some ["old finding", "new item"])] ∧
    (append_by_pr
        { baseEM with pr_numbers := some [7], body := "second mail",
                      markdown := some [("Sonar Findings", some ["new item"])] }
        [{ baseEM with pr_numbers := some [7],
                       markdown := some [("Sonar Findings", some ["old finding"])] }]).map
        (fun e => e.markdown)
      = [some [("Sonar Findings", some ["old finding", "new item"])]] := by
  constructor
  · decide
  · decide

/-- C2: evaluation of `append_by_pr` at a record whose `pr_numbers` is
absent and a non-empty canonical list: the loop over the empty PR-number
list never executes its append branch, so the function returns the list
UNCHANGED and the record is silently dropped — it is not appended as a
standalone canonical record as the claim (and the method's docstring
"if no, append email_msg to results") states. -/
theorem c2_no_pr_record_dropped :
    append_by_pr { baseEM with subject := "new mail", pr_numbers := none }
        [{ baseEM with pr_numbers := some [5] }]
      = [{ baseEM with pr_numbers := some [5] }] ∧
    ({ baseEM with subject := "new mail", pr_numbers := none } : EM)
        ∉ append_by_pr { baseEM with subject := "new mail", pr_numbers := none }
            [{ baseEM with pr_numbers := some [5] }] := by
  constructor
  · decide
  · decide

/-- C5: evaluation of commit extraction at the body consisting of the
single line "abcdefa" (a bare 7-character hex token with no trailing
message): the regex matches with an empty message, the formatted line
`"abcdefa ".strip()` holds no space, and `parse_commit_lines` raises
`ValueError` at `sha, msg = line.split(" ", 1)` instead of producing a
`CommitInfo` with an empty message. -/
theorem c5_commit_extraction_raises :
    commitScan 8 true "abcdefa".toList = [("abcdefa", none)] ∧
    extract_commits "abcdefa"
      = Except.error "ValueError: not enough values to unpack (expected 2, got 1)" := by
  constructor
  · decide
  · rfl

/-- C10: evaluation of `extract_lists` at the body "- hello": the result
is `some ["-"]` — only the captured bullet marker — not the full line
"- hello" the claim describes, because `re.findall` on a pattern with one
capture group returns the group, and the second `findall` of the function
runs the identical pattern.  The `None`-on-no-list-line half of the claim
does hold (second conjunct). -/
theorem c10_lists_markers_only :
    extract_lists "- hello" = some ["-"] ∧
    extract_lists "plain text only" = none := by
  constructor
  · decide
  · decide

/-- C4 counterexample: constructing a record with the empty list supplied
for `linked_prs` (and `linked_tickets`) yields the empty container
`some []`, not `none`: those two fields are not listed in the
`empty_list_to_none` validator and have no validator of their own, so the
claim fails for them. -/
theorem c4_counterexample :
    mkEmailMessage rawC4 = Except.ok recC4 ∧
    recC4.linked_prs = some [] ∧
    recC4.linked_tickets = some [] := by
  refine ⟨rfl, rfl, rfl⟩

/-- C4 (amended): constructing a record with an empty list supplied for
`pr_numbers`, `repos`, `tickets`, `commits`, `files_modified`, `tags` or
`contributors` yields `none` for that field (those fields are covered by
the `convert_pr_numbers` / `empty_list_to_none` validators); but
`linked_prs` and `linked_tickets` have no validator and are stored as
given, so an empty list supplied there remains `[]`. -/
theorem c4_empty_normalization (r : RawEmail) (rec : EM)
    (h : mkEmailMessage r = Except.ok rec) :
    (r.pr_numbers = RawPr.strs [] → rec.pr_numbers = none) ∧
    (r.repos = some [] → rec.repos = none) ∧
    (r.tickets = some [] → rec.tickets = none) ∧
    (r.commits = some [] → rec.commits = none) ∧
    (r.files_modified = some [] → rec.files_modified = none) ∧
    (r.tags = some [] → rec.tags = none) ∧
    (r.contributors = some [] → rec.contributors = none) ∧
    rec.linked_prs = r.linked_prs ∧
    rec.linked_tickets = r.linked_tickets := by
  rw [mkEmailMessage] at h
  cases hc : convert_pr_numbers r.pr_numbers with
  | error e => rw [hc] at h; cases h
  | ok prs =>
      rw [hc] at h
      cases h
      refine ⟨?_, ?_, ?_, ?_, ?_, ?_, ?_, rfl, rfl⟩
      · intro hr
        rw [hr] at hc
        rw [convert_pr_numbers] at hc
        simp at hc
        exact hc.symm
      · intro hr; rw [hr]; rfl
      · intro hr; rw [hr]; rfl
      · intro hr; rw [hr]; rfl
      · intro hr; rw [hr]; rfl
      · intro hr; rw [hr]; rfl
      · intro hr; rw [hr]; rfl

/-- Witness for C4 at the concrete raw input `rawC4`, which passes the
empty container for every optional list field: the seven validated fields
come out `none`, the two unvalidated linked fields come out `some []`. -/
theorem c4_witness :
    mkEmailMessage rawC4 = Except.ok recC4 ∧
    recC4.pr_numbers = none ∧ recC4.repos = none ∧ recC4.tickets = none ∧
    recC4.commits = none ∧ recC4.files_modified = none ∧ recC4.tags = none ∧
    recC4.contributors = none ∧ recC4.linked_prs = some [] ∧
    recC4.linked_tickets = some [] := by
  have h := c4_empty_normalization rawC4 recC4 (by rfl)
  exact ⟨by rfl, h.1 rfl, h.2.1 rfl, h.2.2.1 rfl, h.2.2.2.1 rfl,
    h.2.2.2.2.1 rfl, h.2.2.2.2.2.1 rfl, h.2.2.2.2.2.2.1 rfl,
    h.2.2.2.2.2.2.2.1.trans rfl, h.2.2.2.2.2.2.2.2.trans rfl⟩

/-- C9 counterexample: when the incoming record's body is empty, the body
branch of the merge skips the append (`if new_value:` is false for the
empty string), so the body after the second merge EQUALS the body after
the first — the claim's unconditional "E's body after the second merge
differs from after the first" fails. -/
theorem c9_counterexample :
    (mergeInto
        (mergeInto { baseEM with pr_numbers := some [3] }
          { baseEM with body := "", repos := some ["r1"] })
        { baseEM with body := "", repos := some ["r1"] }).body
      = (mergeInto { baseEM with pr_numbers := some [3] }
          { baseEM with body := "", repos := some ["r1"] }).body := by
  decide

/-- C9 (amended): merging the same record `R` into a canonical record `E`
twice yields the same element set as merging it once for every
union-valued field (repos, tickets, commits, files_modified, tags,
contributors, linked_prs, linked_tickets — stated at set level since
Python's `list(set(...))` leaves order unspecified); and whenever `R`'s
body is non-empty, the second merge appends `R`'s body again joined by a
blank line, so the body after two merges differs from the body after
one.  (When `R`'s body is empty the body branch is skipped and the bodies
coincide, see the counterexample.) -/
theorem c9_merge_union_idem_body_doubles (E R : EM) (hb : R.body ≠ "") :
    (mergeInto (mergeInto E R) R).repos.map List.toFinset
        = (mergeInto E R).repos.map List.toFinset ∧
    (mergeInto (mergeInto E R) R).tickets.map List.toFinset
        = (mergeInto E R).tickets.map List.toFinset ∧
    (mergeInto (mergeInto E R) R).commits.map List.toFinset
        = (mergeInto E R).commits.map List.toFinset ∧
    (mergeInto (mergeInto E R) R).files_modified.map List.toFinset
        = (mergeInto E R).files_modified.map List.toFinset ∧
    (mergeInto (mergeInto E R) R).tags.map List.toFinset
        = (mergeInto E R).tags.map List.toFinset ∧
    (mergeInto (mergeInto E R) R).contributors.map List.toFinset
        = (mergeInto E R).contributors.map List.toFinset ∧
    (mergeInto (mergeInto E R) R).linked_prs.map List.toFinset
        = (mergeInto E R).linked_prs.map List.toFinset ∧
    (mergeInto (mergeInto E R) R).linked_tickets.map List.toFinset
        = (mergeInto E R).linked_tickets.map List.toFinset ∧
    (mergeInto (mergeInto E R) R).body
        = (mergeInto E R).body ++ "\n\n" ++ R.body ∧
    (mergeInto (mergeInto E R) R).body ≠ (mergeInto E R).body := by
  refine ⟨mergeListField_idem E.repos R.repos,
    mergeListField_idem E.tickets R.tickets,
    mergeListField_idem E.commits R.commits,
    mergeListField_idem E.files_modified R.files_modified,
    mergeListField_idem E.tags R.tags,
    mergeListField_idem E.contributors R.contributors,
    mergeListField_idem E.linked_prs R.linked_prs,
    mergeListField_idem E.linked_tickets R.linked_tickets,
    ?_, ?_⟩
  · show mergeBody (mergeInto E R).body R.body
        = (mergeInto E R).body ++ "\n\n" ++ R.body
    rw [mergeBody, if_neg hb]
  · show mergeBody (mergeInto E R).body R.body ≠ (mergeInto E R).body
    rw [mergeBody, if_neg hb]
    intro hEq
    have hlen := congrArg String.length hEq
    rw [String.length_append, String.length_append] at hlen
    have h2 : ("\n\n" : String).length = 2 := rfl
    rw [h2] at hlen
    omega

/-- Witness for C9 at concrete records `e9w` and `r9w` (the latter with a
non-empty body). -/
theorem c9_witness :
    (mergeInto (mergeInto e9w r9w) r9w).repos.map List.toFinset
        = (mergeInto e9w r9w).repos.map List.toFinset ∧
    (mergeInto (mergeInto e9w r9w) r9w).tickets.map List.toFinset
        = (mergeInto e9w r9w).tickets.map List.toFinset ∧
    (mergeInto (mergeInto e9w r9w) r9w).commits.map List.toFinset
        = (mergeInto e9w r9w).commits.map List.toFinset ∧
    (mergeInto (mergeInto e9w r9w) r9w).files_modified.map List.toFinset
        = (mergeInto e9w r9w).files_modified.map List.toFinset ∧
    (mergeInto (mergeInto e9w r9w) r9w).tags.map List.toFinset
        = (mergeInto e9w r9w).tags.map List.toFinset ∧
    (mergeInto (mergeInto e9w r9w) r9w).contributors.map List.toFinset
        = (mergeInto e9w r9w).contributors.map List.toFinset ∧
    (mergeInto (mergeInto e9w r9w) r9w).linked_prs.map List.toFinset
        = (mergeInto e9w r9w).linked_prs.map List.toFinset ∧
    (mergeInto (mergeInto e9w r9w) r9w).linked_tickets.map List.toFinset
        = (mergeInto e9w r9w).linked_tickets.map List.toFinset ∧
    (mergeInto (mergeInto e9w r9w) r9w).body
        = (mergeInto e9w r9w).body ++ "\n\n" ++ r9w.body ∧
    (mergeInto (mergeInto e9w r9w) r9w).body ≠ (mergeInto e9w r9w).body :=
  c9_merge_union_idem_body_doubles e9w r9w (by decide)

/-- C7: subject parsing of "[org/repo] PR #42: Fix bug FOO-123" yields
repos ["org/repo"], PR-number strings ["42"], tickets ["FOO-123"] and the
cleaned title "Fix bug"; record construction then converts the PR-number
strings to the integers [42] via the `convert_pr_numbers` validator. -/
theorem c7_subject_scenario :
    extract_metadata_from_subject "[org/repo] PR #42: Fix bug FOO-123"
      = { repos := some ["org/repo"], pr_numbers := some ["42"],
          tickets := some ["FOO-123"], pr_title := some "Fix bug",
          contributors := none } ∧
    (mkEmailMessage (rawFromSubject "[org/repo] PR #42: Fix bug FOO-123")).map
        (fun rec => (rec.repos, rec.pr_numbers, rec.tickets, rec.pr_title))
      = Except.ok (some ["org/repo"], some [(42 : Int)], some ["FOO-123"],
          some "Fix bug") := by
  constructor
  · decide
  · rfl

/-- C8: for a body whose diff-line matches are exactly the single
captured path "src/core/index.py", the files-modified extraction returns
exactly the three flattened path segments src, core, index.py as its
element set, and the joined full path itself is not an element. -/
theorem c8_file_flattening (t : String)
    (h : fileMatches t = ["src/core/index.py"]) :
    (extract_files_modified t).toFinset = {"src", "core", "index.py"} ∧
    "src/core/index.py" ∉ extract_files_modified t := by
  rw [extract_files_modified, h]
  constructor
  · decide
  · decide

/-- Witness for C8 at the concrete body "M src/core/index.py". -/
theorem c8_witness :
    fileMatches "M src/core/index.py" = ["src/core/index.py"] ∧
    ((extract_files_modified "M src/core/index.py").toFinset
        = {"src", "core", "index.py"} ∧
      "src/core/index.py" ∉ extract_files_modified "M src/core/index.py") :=
  ⟨by decide, c8_file_flattening "M src/core/index.py" (by decide)⟩
